import Mathlib

/-!
Verification of the terminallm agent runtime against its design document.

The definitions below shallowly embed the Python sources of the repository:
`src/lib/base_types.py`, `src/lib/tools/base.py`, `src/lib/tools/registry.py`,
`src/lib/tools/executor.py`, `src/lib/event_sys/manager.py`,
`src/src/event_sys/types.py`, `src/src/tools/tool_manager.py`,
`src/lib/client/content_generator.py`.

Modelling conventions: a Python call that can raise is embedded as a function
into `Except PyErr _`; a `dict` is an association list; opaque payload values
(`Any`) are embedded as `String`; wall-clock measurements are passed in as
explicit parameters.  Side effects that the claims quantify over (events
published, middleware hooks run, tool bodies invoked) are recorded in an
explicit trace.
-/

namespace TerminalLM

/-- Python exceptions that the embedded code can raise. -/
inductive PyErr where
  | attributeError (objType attrName : String)
  | jsonDecodeError (msg : String)
  | queueFull
  | exc (msg : String)
deriving Repr, DecidableEq

/-- Rendering used where the Python code formats an exception with str(e). -/
def PyErr.toMessage : PyErr → String
  | .attributeError o a => o ++ " object has no attribute " ++ a
  | .jsonDecodeError m => m
  | .queueFull => "QueueFull"
  | .exc m => m

/-- A flat key-value argument map (payload values are opaque strings). -/
def Args := List (String × String)
deriving instance DecidableEq for Args

/-- Status values of src/lib/base_types.py ToolCallStatus. -/
inductive ToolCallStatus where
  | pending | executing | completed | failed | cancelled
deriving Repr, DecidableEq

/-- ToolCall of src/lib/base_types.py (lines 35-45). -/
structure ToolCall where
  id : String
  name : String
  arguments : Args
  status : ToolCallStatus := .pending
  metadata : List (String × String) := []
deriving DecidableEq

/-- ToolResult of src/lib/base_types.py (lines 48-56). -/
structure ToolResult where
  tool_call_id : String
  content : String
  is_error : Bool := false
  metadata : List (String × String) := []
  execution_time_ms : Option Int := none
deriving Repr, DecidableEq

/-- StreamEventType of src/lib/base_types.py (lines 9-22). -/
inductive LibEventType where
  | content | completion | toolCallRequest | toolCallResponse
  | toolCallConfirmation | toolResult | userCancelled | error
  | chatCompressed | thought | providerSwitched
deriving Repr, DecidableEq

/-- ToolExecutionContext of src/lib/tools/base.py (lines 111-120). -/
structure ToolExecutionContext where
  provider : String
  model : String
  session_id : Option String := none
  user_id : Option String := none
deriving DecidableEq

/-- ToolExecutionResult of src/lib/tools/base.py (lines 123-136). -/
structure ToolExecutionResult where
  success : Bool
  content : String
  display_content : Option String := none
  metadata : List (String × String) := []
  execution_time_ms : Option Int := none
deriving DecidableEq

/-- The is_error property of ToolExecutionResult (base.py lines 133-136). -/
def ToolExecutionResult.is_error (r : ToolExecutionResult) : Bool := !r.success

/-- A value returned by BaseTool.execute: either a ToolExecutionResult or a
legacy ToolResult (executor.py lines 84-95 branches on isinstance). -/
inductive ExecReturn where
  | execResult (r : ToolExecutionResult)
  | legacy (r : ToolResult)

/-- ToolMiddleware protocol of src/lib/tools/base.py (lines 139-154); each
hook is an awaited call that may raise. -/
structure ToolMiddleware where
  before_execution : String → Args → ToolExecutionContext → Except PyErr Args
  after_execution : String → ToolResult → ToolExecutionContext → Except PyErr ToolResult
  on_error : String → PyErr → ToolExecutionContext → Except PyErr (Option ToolResult)

/-- BaseTool of src/lib/tools/base.py (lines 157-193): name, description, a
tool-specific middleware list, a confirmation predicate and an execute body
(both awaited calls that may raise). -/
structure BaseTool where
  name : String
  description : String
  middleware : List ToolMiddleware := []
  should_confirm_execute : Args → ToolExecutionContext → Except PyErr Bool
  execute : Args → ToolExecutionContext → Except PyErr ExecReturn

/-- ToolRegistry of src/lib/tools/registry.py: its `__init__` (lines 20-24)
creates only the `_tools` dictionary. -/
structure ToolRegistry where
  _tools : List (String × BaseTool)

/-- ToolRegistry.get_tool (registry.py lines 35-45): dictionary get. -/
def ToolRegistry.get_tool (reg : ToolRegistry) (name : String) : Option BaseTool :=
  reg._tools.lookup name

/-- Reading the attribute `middleware` on a ToolRegistry instance.
`ToolRegistry.__init__` (registry.py lines 20-24) assigns only `_tools` and the
class body defines no `middleware` attribute either, so the attribute accesses
`self.registry.middleware` in src/lib/tools/executor.py (lines 74, 102, 138)
raise AttributeError at run time. -/
def ToolRegistry.middlewareAttr (_ : ToolRegistry) : Except PyErr (List ToolMiddleware) :=
  .error (.attributeError "ToolRegistry" "middleware")

/-- Events recorded while the executor runs: published bus events, middleware
hook invocations, tool-body invocations and statistics updates. -/
inductive ExecStep where
  | publishEvt (t : LibEventType)
  | confirmCheck (toolName : String)
  | middlewareBefore (toolName : String)
  | toolInvoked (toolName : String)
  | middlewareAfter (toolName : String)
  | middlewareOnError (toolName : String)
  | statsUpdated (toolName : String) (success : Bool)
deriving Repr, DecidableEq

/-- The before_execution middleware loops of executor.py (lines 74-79): each
hook may rewrite the argument map; the first exception aborts the loop. -/
def runBeforeMiddleware (toolName : String) (ctx : ToolExecutionContext) :
    List ToolMiddleware → Args → Except PyErr Args × List ExecStep
  | [], params => (.ok params, [])
  | m :: rest, params =>
    match m.before_execution toolName params ctx with
    | .error e => (.error e, [.middlewareBefore toolName])
    | .ok params1 =>
      let (r, tr) := runBeforeMiddleware toolName ctx rest params1
      (r, .middlewareBefore toolName :: tr)

/-- The after_execution middleware loops of executor.py (lines 98-103): each
hook may rewrite the result; the first exception aborts the loop. -/
def runAfterMiddleware (toolName : String) (ctx : ToolExecutionContext) :
    List ToolMiddleware → ToolResult → Except PyErr ToolResult × List ExecStep
  | [], result => (.ok result, [])
  | m :: rest, result =>
    match m.after_execution toolName result ctx with
    | .error e => (.error e, [.middlewareAfter toolName])
    | .ok result1 =>
      let (r, tr) := runAfterMiddleware toolName ctx rest result1
      (r, .middlewareAfter toolName :: tr)

/-- The on_error loop of executor.py (lines 138-144): each middleware may
supply a fallback result; a hook that itself raises is skipped. -/
def runOnError (toolName : String) (ctx : ToolExecutionContext) (e : PyErr) :
    List ToolMiddleware → Option ToolResult × List ExecStep
  | [] => (none, [])
  | m :: rest =>
    match m.on_error toolName e ctx with
    | .ok (some fallback) => (some fallback, [.middlewareOnError toolName])
    | .ok none =>
      let (r, tr) := runOnError toolName ctx e rest
      (r, .middlewareOnError toolName :: tr)
    | .error _ =>
      let (r, tr) := runOnError toolName ctx e rest
      (r, .middlewareOnError toolName :: tr)

/-- The try-block of ToolExecutor.execute_tool (executor.py lines 54-132):
publish the request event, check confirmation, run global then tool-specific
before_execution middleware, invoke the tool, run tool-specific then global
after_execution middleware, rebuild the result with the measured wall-clock
time (`elapsed`), record statistics and publish the response event.  The
global-middleware steps read `self.registry.middleware`, an attribute that
does not exist (see `ToolRegistry.middlewareAttr`). -/
def executeToolTry (reg : ToolRegistry) (tool : BaseTool) (call : ToolCall)
    (ctx : ToolExecutionContext) (elapsed : Int) :
    Except PyErr ToolResult × List ExecStep :=
  let tr0 : List ExecStep := [.publishEvt .toolCallRequest]
  match tool.should_confirm_execute call.arguments ctx with
  | .error e => (.error e, tr0 ++ [.confirmCheck call.name])
  | .ok _needsConfirm =>
    let tr1 := tr0 ++ [.confirmCheck call.name]
    match reg.middlewareAttr with
    | .error e => (.error e, tr1)
    | .ok globalMw =>
      let (p1, trG) := runBeforeMiddleware call.name ctx globalMw call.arguments
      match p1 with
      | .error e => (.error e, tr1 ++ trG)
      | .ok params1 =>
        let (p2, trT) := runBeforeMiddleware call.name ctx tool.middleware params1
        match p2 with
        | .error e => (.error e, tr1 ++ trG ++ trT)
        | .ok params2 =>
          let tr2 := tr1 ++ trG ++ trT
          match tool.execute params2 ctx with
          | .error e => (.error e, tr2 ++ [.toolInvoked call.name])
          | .ok ret =>
            let tr3 := tr2 ++ [.toolInvoked call.name]
            let result0 : ToolResult :=
              match ret with
              | .execResult er =>
                { tool_call_id := call.id, content := er.content
                  is_error := er.is_error, metadata := er.metadata
                  execution_time_ms := er.execution_time_ms }
              | .legacy r => r
            let (a1, trA1) := runAfterMiddleware call.name ctx tool.middleware.reverse result0
            match a1 with
            | .error e => (.error e, tr3 ++ trA1)
            | .ok result1 =>
              let (a2, trA2) := runAfterMiddleware call.name ctx globalMw.reverse result1
              match a2 with
              | .error e => (.error e, tr3 ++ trA1 ++ trA2)
              | .ok result2 =>
                let result3 : ToolResult :=
                  { tool_call_id := call.id, content := result2.content
                    is_error := result2.is_error, metadata := result2.metadata
                    execution_time_ms := some elapsed }
                (.ok result3,
                 tr3 ++ trA1 ++ trA2
                   ++ [.statsUpdated call.name true, .publishEvt .toolCallResponse])

/-- ToolExecutor.execute_tool (executor.py lines 27-169).  An absent tool
name short-circuits to an is_error result before the try-block (lines 44-52).
Otherwise the try-block runs; on an exception the except-handler (lines
134-169) builds `tool.middleware + self.registry.middleware` - the registry
attribute access raises AttributeError again, this time outside any handler -
then offers each middleware a fallback and finally synthesizes an is_error
result.  Returns the outcome together with the recorded trace. -/
def executeTool (reg : ToolRegistry) (call : ToolCall) (ctx : ToolExecutionContext)
    (elapsed : Int) : Except PyErr ToolResult × List ExecStep :=
  match reg.get_tool call.name with
  | none =>
    (.ok { tool_call_id := call.id
           content := "Tool " ++ call.name ++ " not found"
           is_error := true
           execution_time_ms := some 0 }, [])
  | some tool =>
    match executeToolTry reg tool call ctx elapsed with
    | (.ok r, tr) => (.ok r, tr)
    | (.error e, tr) =>
      match reg.middlewareAttr with
      | .error e2 => (.error e2, tr)
      | .ok globalMw =>
        match runOnError call.name ctx e (tool.middleware ++ globalMw) with
        | (some fallback, tr2) => (.ok fallback, tr ++ tr2)
        | (none, tr2) =>
          (.ok { tool_call_id := call.id
                 content := "Error executing tool " ++ call.name ++ ": " ++ e.toMessage
                 is_error := true
                 execution_time_ms := some elapsed },
           tr ++ tr2 ++ [.statsUpdated call.name false, .publishEvt .error])

/-- Outcome of one execute_tool task as observed by asyncio.gather with
return_exceptions=True: either the returned result or the raised exception. -/
inductive ExecOutcome where
  | ok (r : ToolResult)
  | exn (e : PyErr)
deriving Repr, DecidableEq

/-- One fill step of the event-loop model of asyncio.gather: when task `i`
completes, its outcome is stored in slot `i` of the result vector. -/
def gatherFill (outcomes : List ExecOutcome) :
    List (Option ExecOutcome) → List Nat → List (Option ExecOutcome)
  | slots, [] => slots
  | slots, i :: rest => gatherFill outcomes (slots.set i outcomes[i]?) rest

/-- Event-loop model of asyncio.gather(*tasks, return_exceptions=True): tasks
complete in an arbitrary schedule `order`, and each completion fills the slot
of that task; the collected vector is positional, not completion-ordered. -/
def gatherOnSchedule (outcomes : List ExecOutcome) (order : List Nat) :
    List (Option ExecOutcome) :=
  gatherFill outcomes (List.replicate outcomes.length none) order

/-- The result-processing loop of ToolExecutor.execute_tools_parallel
(executor.py lines 186-200): an outcome that is an exception is converted to
an is_error ToolResult carrying the id of the call at the same index. -/
def processGatherOutcome (call : ToolCall) : ExecOutcome → ToolResult
  | .ok r => r
  | .exn e =>
    { tool_call_id := call.id
      content := "Tool execution failed: " ++ e.toMessage
      is_error := true
      execution_time_ms := some 0 }

/-- ToolExecutor.execute_tools_parallel (executor.py lines 171-200): an empty
call list short-circuits; otherwise one execute_tool task per call is started
and asyncio.gather collects their outcomes in task order (the parameter
`exec` gives each task's outcome), after which exceptions are converted to
error results positionally. -/
def executeToolsParallel (exec : ToolCall → ExecOutcome) (calls : List ToolCall) :
    List ToolResult :=
  if calls.isEmpty then []
  else (calls.zip (calls.map exec)).map fun cr => processGatherOutcome cr.1 cr.2

/-- ToolExecutor execution statistics record (executor.py lines 204-211).
Numeric times are embedded as rationals. -/
structure ToolStats where
  total_executions : Nat
  successful_executions : Nat
  failed_executions : Nat
  total_time_ms : ℚ
  average_time_ms : ℚ
deriving Repr, DecidableEq

/-- The zero record inserted for a tool name seen for the first time
(executor.py lines 204-211). -/
def initToolStats : ToolStats :=
  { total_executions := 0, successful_executions := 0, failed_executions := 0
    total_time_ms := 0, average_time_ms := 0 }

/-- In-place dictionary write keyed by tool name (insertion order preserved,
new keys appended). -/
def setStat : List (String × ToolStats) → String → ToolStats → List (String × ToolStats)
  | [], k, v => [(k, v)]
  | (k', v') :: rest, k, v =>
    if k' = k then (k, v) :: rest else (k', v') :: setStat rest k v

/-- ToolExecutor._update_execution_stats (executor.py lines 202-221):
increment the execution count, add the measured time, recompute the average
as total over count, and bump the success or failure counter. -/
def updateExecutionStats (stats : List (String × ToolStats)) (tool_name : String)
    (execution_time : ℚ) (success : Bool) : List (String × ToolStats) :=
  let s0 := (stats.lookup tool_name).getD initToolStats
  let s1 : ToolStats :=
    { total_executions := s0.total_executions + 1
      total_time_ms := s0.total_time_ms + execution_time
      average_time_ms := (s0.total_time_ms + execution_time) / ((s0.total_executions : ℚ) + 1)
      successful_executions := s0.successful_executions + (if success then 1 else 0)
      failed_executions := s0.failed_executions + (if success then 0 else 1) }
  setStat stats tool_name s1

/-- A sequence of `_update_execution_stats` calls applied to the initially
empty statistics dictionary. -/
def foldStats (updates : List (String × ℚ × Bool)) : List (String × ToolStats) :=
  updates.foldl (fun m u => updateExecutionStats m u.1 u.2.1 u.2.2) []

/-- The execution times recorded for one tool name in a call sequence. -/
def recordedTimes (updates : List (String × ℚ × Bool)) (name : String) : List ℚ :=
  (updates.filter (fun u => u.1 = name)).map (fun u => u.2.1)

/-- StreamEventType of src/src/event_sys/types.py (lines 9-28); the module
src/lib/event_sys/types.py imported by the event manager is identical in the
names the manager uses. -/
inductive StreamEventType where
  | streamStart | streamContent | streamToolCall | streamChunk
  | streamError | streamComplete
  | agentThinkingStart | agentThinkingChunk | agentThinkingEnd
  | toolCallStart | toolError | toolResult
  | userCancelled | chatCompressed | providerSwitched
  | tokenCount | userInput
deriving Repr, DecidableEq

/-- StreamEvent of src/src/event_sys/types.py (lines 31-39); payload fields
other than the tag are embedded opaquely. -/
structure StreamEvent where
  etype : StreamEventType
  error : Option String := none
  tool_result : List (String × String) := []
  token_count : List (String × Int) := []
  user_input : Option String := none
deriving Repr, DecidableEq

/-- EventSubscription of src/lib/event_sys/manager.py (lines 18-33): an id, a
set of event types, a bounded asyncio queue and an active flag.  The handler
and consumer task are modelled separately (`processEvents`). -/
structure EventSubscription where
  id : String
  event_types : List StreamEventType
  queue : List StreamEvent
  maxsize : Nat
  active : Bool
deriving Repr, DecidableEq

/-- asyncio.Queue.put_nowait: a non-blocking offer that raises QueueFull when
a positive maxsize is reached (a non-positive maxsize means unbounded). -/
def putNowait (sub : EventSubscription) (e : StreamEvent) :
    Except PyErr EventSubscription :=
  if 0 < sub.maxsize ∧ sub.maxsize ≤ sub.queue.length then .error .queueFull
  else .ok { sub with queue := sub.queue ++ [e] }

/-- The warning text logged when a subscription queue is full
(manager.py line 111). -/
def queueFullWarning (sub : EventSubscription) : String :=
  "Event queue full for subscription " ++ sub.id ++ ", dropping event"

/-- The per-subscription step of EventManager.publish (manager.py lines
106-111): deliver to a matching active subscription with put_nowait; the
except clause catches exactly asyncio.QueueFull and logs a warning, so a full
queue drops the event for that subscription only.  Any other exception would
propagate (put_nowait raises no other). -/
def deliverToSubscription (e : StreamEvent) (sub : EventSubscription) :
    Except PyErr (EventSubscription × Option String) :=
  if e.etype ∈ sub.event_types ∧ sub.active then
    match putNowait sub e with
    | .ok sub' => .ok (sub', none)
    | .error .queueFull => .ok (sub, some (queueFullWarning sub))
    | .error err => .error err
  else .ok (sub, none)

/-- The delivery loop of EventManager.publish over the subscription
dictionary values in insertion order. -/
def deliverAll (e : StreamEvent) :
    List EventSubscription → Except PyErr (List EventSubscription × List String)
  | [] => .ok ([], [])
  | sub :: rest => do
    let (sub', w) ← deliverToSubscription e sub
    let (rest', ws) ← deliverAll e rest
    .ok (sub' :: rest', w.toList ++ ws)

/-- EventManager state of src/lib/event_sys/manager.py (lines 81-87). -/
structure EventManagerState where
  subscriptions : List EventSubscription
  event_history : List StreamEvent
  max_history : Nat
  isShutdown : Bool
deriving Repr, DecidableEq

/-- EventManager.publish (manager.py lines 89-111): a no-op after shutdown;
otherwise append the event to the bounded history (oldest evicted) and offer
it to every matching subscription.  Returns the new state and the warnings
logged for dropped deliveries; an uncaught exception would surface as
`.error`. -/
def publish (st : EventManagerState) (e : StreamEvent) :
    Except PyErr (EventManagerState × List String) :=
  if st.isShutdown then .ok (st, [])
  else do
    let hist1 := st.event_history ++ [e]
    let hist2 := if st.max_history < hist1.length then hist1.drop 1 else hist1
    let (subs', warns) ← deliverAll e st.subscriptions
    .ok ({ st with subscriptions := subs', event_history := hist2 }, warns)

/-- The consumer loop EventSubscription._process_events (manager.py lines
51-70) applied to the events queued for one subscription: each event is
handed to the handler; a handler that raises is caught and logged for that
event and the loop continues with the next event.  The trace pairs every
event with the exception its handling raised, if any. -/
def processEvents (handler : StreamEvent → Except PyErr Unit) :
    List StreamEvent → List (StreamEvent × Option PyErr)
  | [] => []
  | ev :: rest =>
    match handler ev with
    | .ok _ => (ev, none) :: processEvents handler rest
    | .error e => (ev, some e) :: processEvents handler rest

/-- The function member of a litellm ChatCompletionMessageToolCall: a tool
name (which the provider may omit) and a JSON-encoded argument string. -/
structure ToolCallFunction where
  name : Option String
  arguments : String
deriving Repr, DecidableEq

/-- A litellm ChatCompletionMessageToolCall as consumed by
ToolCallManager.schedule: an opaque correlation id and the function member. -/
structure ChatToolCall where
  id : String
  function : ToolCallFunction
deriving Repr, DecidableEq

/-- Python truthiness of an optional string: None and the empty string are
falsy. -/
def strTruthy : Option String → Bool
  | none => false
  | some s => !(s = "")

/-- The dictionary returned by tool.execute in the src variant
(src/src/tools/tool_manager.py lines 160-173 reads the keys llm_content and
return_display). -/
structure SrcToolReturn where
  llm_content : String
  return_display : String

/-- A tool as used by ToolCallManager (src/src/tools/tool_manager.py): a
name, a display name, a confirmation query returning optional confirmation
details, and an execute body; both awaited calls may raise. -/
structure SrcTool where
  name : String
  display_name : String
  should_confirm_execute : Args → Option Unit → Except PyErr (Option (List (String × String)))
  execute : Args → Except PyErr SrcToolReturn

/-- Modelled from the spec: the module src/src/tools/tool_registry.py is not
in the source tree; section 4.2 of the design document specifies the registry
as a name-to-tool catalogue with get(name) returning the tool or absent,
which is also exactly how ToolCallManager.schedule uses it. -/
structure SrcToolRegistry where
  tools : List (String × SrcTool)

/-- Registry lookup (spec section 4.2, get(name) -> Tool | absent). -/
def SrcToolRegistry.get_tool (reg : SrcToolRegistry) (name : String) : Option SrcTool :=
  reg.tools.lookup name

/-- Config of src/src/config.py as read by schedule: the approval mode. -/
structure SrcConfig where
  approval_mode : String
deriving Repr, DecidableEq

/-- A tool message produced by ToolCallManager.schedule: the dictionaries
appended to its results list carry tool_call_id, role, name and content. -/
structure ToolMessage where
  tool_call_id : String
  role : String
  name : Option String
  content : String
deriving Repr, DecidableEq

/-- ToolCallManager._confirm_tool_execution (tool_manager.py lines 129-147):
logs the prompt and auto-confirms, always returning confirmed = true. -/
def confirmToolExecution (_tool : SrcTool) (_args : Args)
    (_details : List (String × String)) : Bool :=
  true

/-- ToolCallManager._execute_tool (tool_manager.py lines 149-186): run the
tool, publish a result event and return its llm_content; an exception is
caught, logged, published as a tool-error event and its text returned as the
content.  This helper never raises. -/
def executeSrcTool (tool : SrcTool) (args : Args) : String :=
  match tool.execute args with
  | .ok ret => ret.llm_content
  | .error e => e.toMessage

/-- The body of one iteration of the scheduling loop in
ToolCallManager.schedule (tool_manager.py lines 60-125): a falsy tool name or
a failed registry lookup yields an error message result without execution;
otherwise the JSON argument string is parsed by json.loads (`jsonLoads`
models that stdlib call, and a parse failure raises out of the loop because
line 82 is not guarded); then the tool runs, either directly in yolo mode or
after the (auto-confirming) confirmation flow. -/
def scheduleRequest (jsonLoads : String → Except PyErr Args) (cfg : SrcConfig)
    (reg : SrcToolRegistry) (signal : Option Unit) (req : ChatToolCall) :
    Except PyErr ToolMessage :=
  if !strTruthy req.function.name then
    .ok { tool_call_id := req.id, role := "tool", name := req.function.name
          content := "Tool name is missing in the request." }
  else
    match reg.get_tool (req.function.name.getD "") with
    | none =>
      .ok { tool_call_id := req.id, role := "tool", name := req.function.name
            content := "Tool not found: " ++ req.function.name.getD "" }
    | some tool => do
      let function_args ← jsonLoads req.function.arguments
      if cfg.approval_mode = "yolo" then
        .ok { tool_call_id := req.id, role := "tool", name := req.function.name
              content := executeSrcTool tool function_args }
      else do
        let confirm_details ← tool.should_confirm_execute function_args signal
        match confirm_details with
        | some details =>
          if confirmToolExecution tool function_args details then
            .ok { tool_call_id := req.id, role := "tool", name := req.function.name
                  content := executeSrcTool tool function_args }
          else
            .ok { tool_call_id := req.id, role := "tool", name := req.function.name
                  content := "Tool execution cancelled by user." }
        | none =>
          .ok { tool_call_id := req.id, role := "tool", name := req.function.name
                content := executeSrcTool tool function_args }

/-- ToolCallManager.schedule (tool_manager.py lines 37-127) on a list of tool
calls: publish the start event, then process the requests in order, each
iteration appending exactly one result; an exception raised inside the loop
(in particular by json.loads) propagates and discards the batch. -/
def schedule (jsonLoads : String → Except PyErr Args) (cfg : SrcConfig)
    (reg : SrcToolRegistry) (signal : Option Unit) :
    List ChatToolCall → Except PyErr (List ToolMessage)
  | [] => .ok []
  | req :: rest => do
    let msg ← scheduleRequest jsonLoads cfg reg signal req
    let msgs ← schedule jsonLoads cfg reg signal rest
    .ok (msg :: msgs)

/-- A message dictionary in the conversation history kept by
ContentGenerator (src/lib/client/content_generator.py): role plus the keys
the append sites write (absent keys are `none`). -/
structure ChatMsg where
  role : String
  content : Option String
  tool_calls : Option (List ChatToolCall) := none
  tool_call_id : Option String := none
  name : Option String := none
deriving Repr, DecidableEq

/-- One aggregated model response as produced by litellm.stream_chunk_builder
and read by the orchestrator loop: the message content, its tool calls (an
absent field and an empty list are both falsy and are identified) and the
finish reason of the first choice. -/
structure AggResponse where
  content : Option String
  tool_calls : List ChatToolCall
  finish_reason : Option String
deriving Repr, DecidableEq

/-- ContentGenerator._update_llm_response (content_generator.py lines 51-76):
append the aggregated response as an assistant message.  Both content and
tool calls: append both; only content: append a content-only message; tool
calls with content None (tested with `is None`, so an empty-string content
falls through): append with null content; otherwise log a warning and append
nothing. -/
def updateLlmResponse (rm : AggResponse) (messages : List ChatMsg) : List ChatMsg :=
  if rm.tool_calls ≠ [] ∧ strTruthy rm.content then
    messages ++ [{ role := "assistant", content := rm.content
                   tool_calls := some rm.tool_calls }]
  else if strTruthy rm.content ∧ rm.tool_calls = [] then
    messages ++ [{ role := "assistant", content := rm.content }]
  else if rm.tool_calls ≠ [] ∧ rm.content = none then
    messages ++ [{ role := "assistant", content := none
                   tool_calls := some rm.tool_calls }]
  else
    messages

/-- ContentGenerator._update_tool_response (content_generator.py lines
78-92): append one tool-role message per scheduler result, in order, copying
content, tool_call_id and name. -/
def updateToolResponse (tool_response : List ToolMessage) (messages : List ChatMsg) :
    List ChatMsg :=
  messages ++ tool_response.map fun m =>
    { role := "tool", content := some m.content
      tool_call_id := some m.tool_call_id, name := m.name }

/-- ContentGenerator.generate_content_streaming (content_generator.py lines
24-49): the orchestrator loop.  The `responses` list is the sequence of
aggregated responses the completion transport yields, one per iteration of
the `while True` loop; an exhausted list returns the history reached so far
with no final answer (the real loop would keep requesting).  Each turn
appends the assistant message, dispatches tool calls through
ToolCallManager.schedule when present (a scheduling exception propagates),
appends the tool messages, publishes token counts (no history effect), and
returns the content when it is truthy with finish reason stop. -/
def generateContentStreaming (jsonLoads : String → Except PyErr Args)
    (cfg : SrcConfig) (reg : SrcToolRegistry) (signal : Option Unit) :
    List AggResponse → List ChatMsg → Except PyErr (Option String × List ChatMsg)
  | [], messages => .ok (none, messages)
  | r :: rest, messages =>
    if r.tool_calls ≠ [] then
      match schedule jsonLoads cfg reg signal r.tool_calls with
      | .error e => .error e
      | .ok tool_response =>
        if strTruthy r.content ∧ r.finish_reason = some "stop" then
          .ok (r.content, updateToolResponse tool_response (updateLlmResponse r messages))
        else
          generateContentStreaming jsonLoads cfg reg signal rest
            (updateToolResponse tool_response (updateLlmResponse r messages))
    else
      if strTruthy r.content ∧ r.finish_reason = some "stop" then
        .ok (r.content, updateLlmResponse r messages)
      else
        generateContentStreaming jsonLoads cfg reg signal rest (updateLlmResponse r messages)

/-- A JSON-like value, the shape of the schema dictionaries built by
src/lib/tools/base.py. -/
inductive Json where
  | str (s : String)
  | num (n : Int)
  | jbool (b : Bool)
  | null
  | arr (xs : List Json)
  | obj (fields : List (String × Json))

/-- Key lookup on a JSON object. -/
def Json.lookup : Json → String → Option Json
  | .obj fields, k => List.lookup k fields
  | _, _ => none

/-- String projection of a JSON value. -/
def Json.asString : Json → Option String
  | .str s => some s
  | _ => none

/-- String-array projection of a JSON value. -/
def Json.asStringList : Json → Option (List String)
  | .arr xs => xs.mapM Json.asString
  | _ => none

/-- ToolParameter of src/lib/tools/base.py (lines 20-29). -/
structure ToolParameter where
  name : String
  data_type : String
  description : String
  required : Bool := false
  extra : List (String × Json) := []

/-- ToolParameter._format_generic_schema (base.py lines 41-54): type, then
items for arrays (defaulting to string items), then enum when enum_values is
present, then description when non-empty; keys appear in assignment order. -/
def ToolParameter.format_generic_schema (p : ToolParameter) : Json :=
  .obj ([("type", .str p.data_type)]
    ++ (if p.data_type = "array" then
          [("items", (List.lookup "items" p.extra).getD (.obj [("type", .str "string")]))]
        else [])
    ++ (match List.lookup "enum_values" p.extra with
        | some v => [("enum", v)]
        | none => [])
    ++ (if p.description ≠ "" then [("description", .str p.description)] else []))

/-- ToolParameter.get_params_schema (base.py lines 31-39): the named provider
conventions return empty objects (lines 56-63); anything else formats the
generic shape. -/
def ToolParameter.get_params_schema (p : ToolParameter) (provider : String) : Json :=
  if provider = "openai" then .obj []
  else if provider = "anthropic" then .obj []
  else if provider = "google" then .obj []
  else p.format_generic_schema

/-- ToolSchema of src/lib/tools/base.py (lines 66-74). -/
structure ToolSchema where
  name : String
  description : String
  parameters : List ToolParameter := []
  required : List String := []

/-- ToolSchema._format_generic_schema (base.py lines 86-99); called from
get_tool_schema without an argument, so the per-parameter provider is the
default litellm. -/
def ToolSchema.format_generic_schema (ts : ToolSchema) : Json :=
  .obj [("type", .str "function"),
        ("function", .obj
          [("name", .str ts.name),
           ("description", .str ts.description),
           ("parameters", .obj
             [("type", .str "object"),
              ("properties", .obj (ts.parameters.map fun p =>
                (p.name, p.get_params_schema "litellm"))),
              ("required", .arr (ts.required.map .str))])])]

/-- ToolSchema.get_tool_schema (base.py lines 76-84): the named provider
conventions return empty objects (lines 101-108); any other convention falls
back to the generic shape. -/
def ToolSchema.get_tool_schema (ts : ToolSchema) (provider : String) : Json :=
  if provider = "openai" then .obj []
  else if provider = "anthropic" then .obj []
  else if provider = "google" then .obj []
  else ts.format_generic_schema

/-- Re-deriving the tool name from an exported schema object. -/
def recoverName (j : Json) : Option String :=
  (j.lookup "function").bind fun f => (f.lookup "name").bind Json.asString

/-- Re-deriving the tool description from an exported schema object. -/
def recoverDescription (j : Json) : Option String :=
  (j.lookup "function").bind fun f => (f.lookup "description").bind Json.asString

/-- Re-deriving the required-parameter names from an exported schema
object. -/
def recoverRequired (j : Json) : Option (List String) :=
  (j.lookup "function").bind fun f =>
    (f.lookup "parameters").bind fun ps =>
      (ps.lookup "required").bind Json.asStringList

/-! Helper lemmas about the statistics dictionary. -/

theorem lookup_setStat_self (m : List (String × ToolStats)) (k : String) (v : ToolStats) :
    (setStat m k v).lookup k = some v := by
  induction m with
  | nil => simp [setStat, List.lookup]
  | cons hd tl ih =>
    obtain ⟨k', v'⟩ := hd
    by_cases h : k' = k
    · simp [setStat, h, List.lookup]
    · have hb : (k == k') = false := by simp [Ne.symm h]
      simp [setStat, h, List.lookup, hb, ih]

theorem lookup_setStat_ne (m : List (String × ToolStats)) (k k' : String) (v : ToolStats)
    (h : k' ≠ k) : (setStat m k v).lookup k' = m.lookup k' := by
  have hb : (k' == k) = false := by simp [h]
  induction m with
  | nil => simp [setStat, List.lookup, hb]
  | cons hd tl ih =>
    obtain ⟨k₀, v₀⟩ := hd
    by_cases h0 : k₀ = k
    · subst h0
      simp [setStat, List.lookup, hb]
    · by_cases h1 : k₀ = k'
      · subst h1
        simp [setStat, h0, List.lookup]
      · have hb1 : (k' == k₀) = false := by simp [Ne.symm h1]
        simp [setStat, h0, List.lookup, hb1, ih]

/-- The per-name statistics invariant after a sequence of update calls. -/
def StatsInv (updates : List (String × ℚ × Bool)) (m : List (String × ToolStats)) : Prop :=
  ∀ name,
    (m.lookup name = none → recordedTimes updates name = []) ∧
    ∀ s, m.lookup name = some s →
      s.total_executions = s.successful_executions + s.failed_executions ∧
      s.total_time_ms = (recordedTimes updates name).sum ∧
      s.average_time_ms = s.total_time_ms / (s.total_executions : ℚ) ∧
      0 < s.total_executions

theorem recordedTimes_append (us : List (String × ℚ × Bool)) (u : String × ℚ × Bool)
    (name : String) :
    recordedTimes (us ++ [u]) name =
      recordedTimes us name ++ (if u.1 = name then [u.2.1] else []) := by
  by_cases h : u.1 = name <;> simp [recordedTimes, List.filter_append, h]

theorem statsInv_update (us : List (String × ℚ × Bool)) (m : List (String × ToolStats))
    (hinv : StatsInv us m) (n : String) (t : ℚ) (b : Bool) :
    StatsInv (us ++ [(n, t, b)]) (updateExecutionStats m n t b) := by
  intro name
  by_cases hn : name = n
  · subst hn
    constructor
    · intro hnone
      rw [updateExecutionStats, lookup_setStat_self] at hnone
      exact absurd hnone (by simp)
    · intro s hs
      rw [updateExecutionStats, lookup_setStat_self] at hs
      have hrt := recordedTimes_append us (name, t, b) name
      simp only [if_pos rfl] at hrt
      rcases hm : m.lookup name with _ | s0
      · have hemp : recordedTimes us name = [] := (hinv name).1 hm
        simp only [hm] at hs
        cases hs
        constructor
        · cases b <;> simp [initToolStats]
        refine ⟨?_, ?_, ?_⟩
        · simp [hrt, hemp, initToolStats]
        · norm_num [initToolStats]
        · simp [initToolStats]
      · obtain ⟨h1, h2, _, h4⟩ := (hinv name).2 s0 hm
        simp only [hm] at hs
        cases hs
        refine ⟨?_, ?_, ?_, ?_⟩
        · simp only [Option.getD_some]
          cases b <;> simp <;> omega
        · simp [hrt, h2]
        · push_cast
          ring_nf
        · simp
  · have hrt : recordedTimes (us ++ [(n, t, b)]) name = recordedTimes us name := by
      rw [recordedTimes_append,
        if_neg (show ¬((n, t, b).1 = name) from fun hh => hn hh.symm),
        List.append_nil]
    constructor
    · intro hnone
      rw [updateExecutionStats, lookup_setStat_ne m n name _ hn] at hnone
      rw [hrt]
      exact (hinv name).1 hnone
    · intro s hs
      rw [updateExecutionStats, lookup_setStat_ne m n name _ hn] at hs
      rw [hrt]
      exact (hinv name).2 s hs

theorem statsInv_foldStats (updates : List (String × ℚ × Bool)) :
    StatsInv updates (foldStats updates) := by
  induction updates using List.reverseRecOn with
  | nil =>
    intro name
    constructor
    · intro _
      simp [recordedTimes]
    · intro s hs
      simp [foldStats, List.lookup] at hs
  | append_singleton us u ih =>
    obtain ⟨n, t, b⟩ := u
    have : foldStats (us ++ [(n, t, b)]) = updateExecutionStats (foldStats us) n t b := by
      simp [foldStats, List.foldl_append]
    rw [this]
    exact statsInv_update us (foldStats us) ih n t b

/-- C10: after any sequence of execute_tool calls, every recorded per-tool
statistics record satisfies total_executions = successful_executions +
failed_executions, total_time_ms is the sum of the recorded execution times,
average_time_ms is total_time_ms divided by total_executions, and
total_executions is positive. -/
theorem executionStats_invariant (updates : List (String × ℚ × Bool)) (name : String)
    (s : ToolStats) (h : (foldStats updates).lookup name = some s) :
    s.total_executions = s.successful_executions + s.failed_executions ∧
    s.total_time_ms = (recordedTimes updates name).sum ∧
    s.average_time_ms = s.total_time_ms / (s.total_executions : ℚ) ∧
    0 < s.total_executions :=
  (statsInv_foldStats updates name).2 s h

/-- Witness for C10 at a concrete call sequence: one successful call of 4 ms
and one failed call of 2 ms for the same tool. -/
theorem executionStats_invariant_witness :
    (foldStats [("read_file", 4, true), ("read_file", 2, false)]).lookup "read_file" =
      some { total_executions := 2, successful_executions := 1, failed_executions := 1
             total_time_ms := 6, average_time_ms := 3 } ∧
    ((2 : Nat) = 1 + 1 ∧
     (6 : ℚ) = (recordedTimes [("read_file", 4, true), ("read_file", 2, false)] "read_file").sum ∧
     (3 : ℚ) = 6 / ((2 : Nat) : ℚ) ∧
     0 < 2) := by
  have hl : (foldStats [("read_file", 4, true), ("read_file", 2, false)]).lookup "read_file" =
      some { total_executions := 2, successful_executions := 1, failed_executions := 1
             total_time_ms := 6, average_time_ms := 3 } := by
    simp only [foldStats, List.foldl, updateExecutionStats, setStat, initToolStats,
      List.lookup]
    norm_num
  exact ⟨hl, executionStats_invariant [("read_file", 4, true), ("read_file", 2, false)]
      "read_file" _ hl⟩

/-- C5: a tool call whose name is not in the registry makes execute_tool
return an is_error ToolResult carrying that call's id immediately, with an
empty trace: no event is published, no middleware hook runs and no tool body
is invoked. -/
theorem execute_tool_unknown_tool (reg : ToolRegistry) (call : ToolCall)
    (ctx : ToolExecutionContext) (elapsed : Int)
    (h : reg.get_tool call.name = none) :
    executeTool reg call ctx elapsed =
      (.ok { tool_call_id := call.id
             content := "Tool " ++ call.name ++ " not found"
             is_error := true
             execution_time_ms := some 0 }, ([] : List ExecStep)) := by
  simp [executeTool, h]

/-- Witness for C5: the unknown tool call tc2 against an empty registry. -/
theorem execute_tool_unknown_tool_witness :
    (ToolRegistry.get_tool { _tools := [] } "nonexistent" = none) ∧
    executeTool { _tools := [] }
        { id := "tc2", name := "nonexistent", arguments := [] }
        { provider := "litellm", model := "gpt" } 0 =
      (.ok { tool_call_id := "tc2"
             content := "Tool " ++ "nonexistent" ++ " not found"
             is_error := true
             execution_time_ms := some 0 }, ([] : List ExecStep)) :=
  ⟨rfl, execute_tool_unknown_tool { _tools := [] }
    { id := "tc2", name := "nonexistent", arguments := [] }
    { provider := "litellm", model := "gpt" } 0 rfl⟩

theorem executeToolTry_isError (reg : ToolRegistry) (tool : BaseTool) (call : ToolCall)
    (ctx : ToolExecutionContext) (elapsed : Int) :
    ∃ e, executeToolTry reg tool call ctx elapsed =
      (.error e, [.publishEvt .toolCallRequest, .confirmCheck call.name]) := by
  cases hc : tool.should_confirm_execute call.arguments ctx with
  | error e => exact ⟨e, by simp [executeToolTry, hc]⟩
  | ok b =>
    exact ⟨.attributeError "ToolRegistry" "middleware",
      by simp [executeToolTry, hc, ToolRegistry.middlewareAttr]⟩

theorem executeTool_found_err (reg : ToolRegistry) (call : ToolCall)
    (ctx : ToolExecutionContext) (elapsed : Int) (tool : BaseTool)
    (h : reg.get_tool call.name = some tool) :
    (executeTool reg call ctx elapsed).1 =
      .error (.attributeError "ToolRegistry" "middleware") := by
  obtain ⟨e, htry⟩ := executeToolTry_isError reg tool call ctx elapsed
  simp [executeTool, h, htry, ToolRegistry.middlewareAttr]

/-- C4: for every registered tool, execute_tool does not return a ToolResult
at all: the body dereferences the non-existent registry attribute
`middleware`, the except-handler dereferences it again outside any handler,
and the resulting AttributeError propagates to the caller. -/
theorem execute_tool_registered_raises (reg : ToolRegistry) (call : ToolCall)
    (ctx : ToolExecutionContext) (elapsed : Int) (tool : BaseTool)
    (h : reg.get_tool call.name = some tool) :
    (executeTool reg call ctx elapsed).1 =
      .error (.attributeError "ToolRegistry" "middleware") :=
  executeTool_found_err reg call ctx elapsed tool h

/-- A concrete tool used to witness behaviour on a registered tool. -/
def echoTool : BaseTool :=
  { name := "echo"
    description := "Echo the input back"
    should_confirm_execute := fun _ _ => .ok false
    execute := fun _ _ => .ok (.execResult { success := true, content := "ok" }) }

/-- Witness for C4: a registry holding the echo tool; executing the
registered call raises AttributeError instead of returning a result. -/
theorem execute_tool_registered_raises_witness :
    (ToolRegistry.get_tool { _tools := [("echo", echoTool)] } "echo" = some echoTool) ∧
    (executeTool { _tools := [("echo", echoTool)] }
        { id := "tc1", name := "echo", arguments := [] }
        { provider := "litellm", model := "gpt" } 5).1 =
      .error (.attributeError "ToolRegistry" "middleware") :=
  ⟨rfl, execute_tool_registered_raises { _tools := [("echo", echoTool)] }
    { id := "tc1", name := "echo", arguments := [] }
    { provider := "litellm", model := "gpt" } 5 echoTool rfl⟩

/-- Every result that execute_tool does return carries the id of the call it
was given (the only returning path in the current code is the unknown-tool
path; every reachable path constructs the result with tool_call.id). -/
theorem executeTool_ok_id (reg : ToolRegistry) (call : ToolCall)
    (ctx : ToolExecutionContext) (elapsed : Int) (r : ToolResult)
    (h : (executeTool reg call ctx elapsed).1 = .ok r) :
    r.tool_call_id = call.id := by
  rcases hg : reg.get_tool call.name with _ | tool
  · rw [executeTool] at h
    simp only [hg] at h
    cases h
    rfl
  · rw [executeTool_found_err reg call ctx elapsed tool hg] at h
    cases h

/-! Helper lemmas for the parallel executor. -/

theorem zip_self_map {α β : Type} (l : List α) (f : α → β) :
    l.zip (l.map f) = l.map fun a => (a, f a) := by
  induction l with
  | nil => rfl
  | cons hd tl ih => simp [ih]

theorem executeToolsParallel_eq_map (exec : ToolCall → ExecOutcome)
    (calls : List ToolCall) :
    executeToolsParallel exec calls =
      calls.map fun c => processGatherOutcome c (exec c) := by
  cases calls with
  | nil => rfl
  | cons hd tl =>
    simp only [executeToolsParallel, List.isEmpty_cons, Bool.false_eq_true, if_false,
      zip_self_map, List.map_map]
    rfl

theorem gatherFill_getElem (outcomes : List ExecOutcome) (order : List Nat) :
    ∀ (slots : List (Option ExecOutcome)), slots.length = outcomes.length →
      ∀ j, (gatherFill outcomes slots order)[j]? =
        if j ∈ order ∧ j < outcomes.length then some outcomes[j]? else slots[j]? := by
  induction order with
  | nil => intro slots _ j; simp [gatherFill]
  | cons i rest ih =>
    intro slots hlen j
    rw [gatherFill, ih (slots.set i outcomes[i]?) (by simp [hlen])]
    by_cases hmem : j ∈ rest ∧ j < outcomes.length
    · simp [hmem, hmem.1, hmem.2]
    · rw [if_neg hmem, List.getElem?_set]
      by_cases hij : i = j
      · subst hij
        by_cases hlt : i < outcomes.length
        · simp [hlt, hlen]
        · have h1 : ¬ i < slots.length := by rw [hlen]; exact hlt
          have h2 : ¬(i ∈ i :: rest ∧ i < outcomes.length) := fun hh => hlt hh.2
          rw [if_pos rfl, if_neg h1, if_neg h2,
            List.getElem?_eq_none (by rw [hlen]; omega)]
      · rw [if_neg hij]
        have : (j ∈ i :: rest ∧ j < outcomes.length) ↔ (j ∈ rest ∧ j < outcomes.length) := by
          constructor
          · rintro ⟨hm, hl⟩
            rcases List.mem_cons.mp hm with h | h
            · exact absurd h.symm hij
            · exact ⟨h, hl⟩
          · rintro ⟨hm, hl⟩
            exact ⟨List.mem_cons_of_mem _ hm, hl⟩
        rw [if_neg (fun hh => hmem (this.mp hh))]

theorem gatherOnSchedule_complete (outcomes : List ExecOutcome) (order : List Nat)
    (hcover : ∀ i, i < outcomes.length → i ∈ order) :
    gatherOnSchedule outcomes order = outcomes.map some := by
  apply List.ext_getElem?
  intro j
  rw [gatherOnSchedule,
    gatherFill_getElem outcomes order (List.replicate outcomes.length none)
      (by simp) j]
  by_cases hj : j < outcomes.length
  · simp [hcover j hj, hj, List.getElem?_eq_getElem hj]
  · rw [if_neg (fun hh => hj hh.2), List.getElem?_replicate]
    rw [if_neg hj, List.getElem?_eq_none (by simpa using Nat.le_of_not_lt hj)]

/-- C2: for any per-task outcomes, asyncio.gather collects the N outcomes
positionally under every completion schedule, and execute_tools_parallel
returns exactly N results in input order: result i carries the id of call i,
a task that returned a result passes it through unchanged, and a task that
raised is converted to an is_error result for that call only, leaving the
sibling results untouched. -/
theorem execute_tools_parallel_independence (exec : ToolCall → ExecOutcome)
    (calls : List ToolCall) (order : List Nat)
    (hcover : ∀ i, i < calls.length → i ∈ order)
    (hid : ∀ c r, exec c = .ok r → r.tool_call_id = c.id) :
    gatherOnSchedule (calls.map exec) order = (calls.map exec).map some ∧
    (executeToolsParallel exec calls).length = calls.length ∧
    ∀ (i : Nat) c, calls[i]? = some c →
      ∃ res, (executeToolsParallel exec calls)[i]? = some res ∧
        res.tool_call_id = c.id ∧
        (∀ r, exec c = .ok r → res = r) ∧
        (∀ e, exec c = .exn e →
          res = { tool_call_id := c.id
                  content := "Tool execution failed: " ++ e.toMessage
                  is_error := true
                  execution_time_ms := some 0 }) := by
  refine ⟨gatherOnSchedule_complete (calls.map exec) order (by simpa using hcover), ?_, ?_⟩
  · rw [executeToolsParallel_eq_map]
    simp
  · intro i c hc
    refine ⟨processGatherOutcome c (exec c), ?_, ?_, ?_, ?_⟩
    · rw [executeToolsParallel_eq_map, List.getElem?_map, hc]
      rfl
    · cases hx : exec c with
      | ok r => simpa [processGatherOutcome, hx] using hid c r hx
      | exn e => simp [processGatherOutcome, hx]
    · intro r hr
      simp [processGatherOutcome, hr]
    · intro e he
      simp [processGatherOutcome, he]

/-- The two tool calls of the executor-independence scenario. -/
def callA : ToolCall := { id := "tcA", name := "alpha", arguments := [] }

/-- The failing sibling call of the executor-independence scenario. -/
def callB : ToolCall := { id := "tcB", name := "beta", arguments := [] }

/-- Task outcomes for the scenario: call A returns a non-error result, call B
raises. -/
def witExec : ToolCall → ExecOutcome := fun c =>
  if c.id = "tcA" then
    .ok { tool_call_id := "tcA", content := "alpha output", is_error := false
          execution_time_ms := some 1 }
  else .exn (.exc "boom")

/-- Witness for C2: calls [A, B] with B completing first (schedule [1, 0]);
the results come back in request order as [A non-error, B error]. -/
theorem execute_tools_parallel_independence_witness :
    ((∀ i, i < [callA, callB].length → i ∈ [1, 0]) ∧
     (∀ c r, witExec c = .ok r → r.tool_call_id = c.id)) ∧
    (gatherOnSchedule ([callA, callB].map witExec) [1, 0] =
        ([callA, callB].map witExec).map some ∧
      (executeToolsParallel witExec [callA, callB]).length = [callA, callB].length ∧
      ∀ (i : Nat) c, [callA, callB][i]? = some c →
        ∃ res, (executeToolsParallel witExec [callA, callB])[i]? = some res ∧
          res.tool_call_id = c.id ∧
          (∀ r, witExec c = .ok r → res = r) ∧
          (∀ e, witExec c = .exn e →
            res = { tool_call_id := c.id
                    content := "Tool execution failed: " ++ e.toMessage
                    is_error := true
                    execution_time_ms := some 0 })) := by
  have h1 : ∀ i, i < [callA, callB].length → i ∈ [1, 0] := by
    intro i hi
    simp only [List.length_cons, List.length_nil] at hi
    interval_cases i <;> simp
  have h2 : ∀ c r, witExec c = .ok r → r.tool_call_id = c.id := by
    intro c r h
    by_cases hc : c.id = "tcA"
    · rw [witExec, if_pos hc] at h
      cases h
      exact hc.symm
    · rw [witExec, if_neg hc] at h
      cases h
  exact ⟨⟨h1, h2⟩,
    execute_tools_parallel_independence witExec [callA, callB] [1, 0] h1 h2⟩

/-- On the scenario inputs the parallel executor returns exactly the pair
[A non-error, B error] in request order. -/
theorem execute_tools_parallel_scenario :
    executeToolsParallel witExec [callA, callB] =
      [{ tool_call_id := "tcA", content := "alpha output", is_error := false
         execution_time_ms := some 1 },
       { tool_call_id := "tcB", content := "Tool execution failed: boom"
         is_error := true, execution_time_ms := some 0 }] := by
  decide

/-! Helper lemmas for the event bus. -/

/-- The subscription state after one delivery step (the total companion of
`deliverToSubscription`). -/
def deliverResult (e : StreamEvent) (sub : EventSubscription) : EventSubscription :=
  if e.etype ∈ sub.event_types ∧ sub.active then
    match putNowait sub e with
    | .ok sub' => sub'
    | .error _ => sub
  else sub

/-- The warning logged by one delivery step, if any. -/
def deliverWarn (e : StreamEvent) (sub : EventSubscription) : Option String :=
  if e.etype ∈ sub.event_types ∧ sub.active then
    match putNowait sub e with
    | .ok _ => none
    | .error _ => some (queueFullWarning sub)
  else none

theorem deliverToSubscription_ok (e : StreamEvent) (sub : EventSubscription) :
    deliverToSubscription e sub = .ok (deliverResult e sub, deliverWarn e sub) := by
  unfold deliverToSubscription deliverResult deliverWarn
  by_cases h : e.etype ∈ sub.event_types ∧ sub.active
  · by_cases hq : 0 < sub.maxsize ∧ sub.maxsize ≤ sub.queue.length
    · simp [h, putNowait, hq]
    · simp [h, putNowait, hq]
  · simp [h]

theorem deliverAll_ok (e : StreamEvent) (subs : List EventSubscription) :
    deliverAll e subs =
      .ok (subs.map (deliverResult e), subs.filterMap (deliverWarn e)) := by
  induction subs with
  | nil => rfl
  | cons sub rest ih =>
    rw [deliverAll, deliverToSubscription_ok, ih]
    cases hw : deliverWarn e sub with
    | none => rw [List.filterMap_cons, hw]; rfl
    | some w => rw [List.filterMap_cons, hw]; rfl

theorem publish_ok (st : EventManagerState) (e : StreamEvent)
    (hshut : st.isShutdown = false) :
    publish st e =
      .ok ({ st with
              subscriptions := st.subscriptions.map (deliverResult e)
              event_history :=
                if st.max_history < (st.event_history ++ [e]).length then
                  (st.event_history ++ [e]).drop 1
                else st.event_history ++ [e] },
           st.subscriptions.filterMap (deliverWarn e)) := by
  rw [publish, if_neg (by simp [hshut])]
  rw [show (deliverAll e st.subscriptions) = _ from deliverAll_ok e st.subscriptions]
  rfl

theorem processEvents_map_fst (handler : StreamEvent → Except PyErr Unit)
    (evs : List StreamEvent) :
    (processEvents handler evs).map Prod.fst = evs := by
  induction evs with
  | nil => rfl
  | cons ev rest ih =>
    cases h : handler ev <;> simp [processEvents, h, ih]

/-- C3: the event bus isolates subscribers.  Publish always returns (the
only exception of the non-blocking offer, QueueFull, is caught); with a full
matching subscription A and a matching subscription B with queue space
anywhere in the subscription list, publishing delivers the event to B,
leaves A's queue unchanged, and records a queue-full warning for A; and the
per-subscription consumer loop hands every queued event to the handler even
when the handler raises on earlier events. -/
theorem event_bus_isolation (st : EventManagerState) (e : StreamEvent)
    (pre mid post : List EventSubscription) (subA subB : EventSubscription)
    (hshut : st.isShutdown = false)
    (hsubs : st.subscriptions = pre ++ subA :: (mid ++ subB :: post))
    (hA : e.etype ∈ subA.event_types ∧ subA.active = true ∧
          0 < subA.maxsize ∧ subA.maxsize ≤ subA.queue.length)
    (hB : e.etype ∈ subB.event_types ∧ subB.active = true ∧
          ¬(0 < subB.maxsize ∧ subB.maxsize ≤ subB.queue.length))
    (handler : StreamEvent → Except PyErr Unit) (evs : List StreamEvent) :
    (∀ (st' : EventManagerState) (e' : StreamEvent), ∃ out, publish st' e' = .ok out) ∧
    (∃ st₁ warns, publish st e = .ok (st₁, warns) ∧
      st₁.subscriptions =
        pre.map (deliverResult e) ++ subA ::
          (mid.map (deliverResult e) ++
            { subB with queue := subB.queue ++ [e] } :: post.map (deliverResult e)) ∧
      queueFullWarning subA ∈ warns) ∧
    (processEvents handler evs).map Prod.fst = evs := by
  have hAres : deliverResult e subA = subA := by
    rw [deliverResult, if_pos ⟨hA.1, hA.2.1⟩, putNowait, if_pos ⟨hA.2.2.1, hA.2.2.2⟩]
  have hAwarn : deliverWarn e subA = some (queueFullWarning subA) := by
    rw [deliverWarn, if_pos ⟨hA.1, hA.2.1⟩, putNowait, if_pos ⟨hA.2.2.1, hA.2.2.2⟩]
  have hBres : deliverResult e subB = { subB with queue := subB.queue ++ [e] } := by
    rw [deliverResult, if_pos ⟨hB.1, hB.2.1⟩, putNowait, if_neg hB.2.2]
  refine ⟨?_, ?_, processEvents_map_fst handler evs⟩
  · intro st' e'
    by_cases h : st'.isShutdown = false
    · exact ⟨_, publish_ok st' e' h⟩
    · refine ⟨(st', []), ?_⟩
      rw [publish, if_pos (by revert h; cases st'.isShutdown <;> simp)]
  · refine ⟨_, _, publish_ok st e hshut, ?_, ?_⟩
    · simp only [hsubs, List.map_append, List.map_cons, hAres, hBres]
    · simp only [hsubs, List.filterMap_append, List.filterMap_cons, hAwarn]
      exact List.mem_append_right _ (List.mem_cons_self _ _)

/-- The event published in the bus-isolation witness. -/
def evtPayload : StreamEvent := { etype := .toolResult }

/-- A matching subscription whose queue of capacity 1 is already full. -/
def subFull : EventSubscription :=
  { id := "sub_1", event_types := [.toolResult], queue := [{ etype := .streamStart }]
    maxsize := 1, active := true }

/-- A matching subscription with queue space. -/
def subFree : EventSubscription :=
  { id := "sub_2", event_types := [.toolResult], queue := [], maxsize := 2
    active := true }

/-- The bus state of the bus-isolation witness. -/
def busState : EventManagerState :=
  { subscriptions := [subFull, subFree], event_history := [], max_history := 10000
    isShutdown := false }

/-- A handler that raises on stream-error events and succeeds otherwise. -/
def witHandler : StreamEvent → Except PyErr Unit := fun ev =>
  if ev.etype = .streamError then .error (.exc "handler failure") else .ok ()

/-- Witness for C3: a full subscription and a free subscription, plus a
handler that raises on the first of two queued events. -/
theorem event_bus_isolation_witness :
    (busState.isShutdown = false ∧
     busState.subscriptions = [] ++ subFull :: ([] ++ subFree :: []) ∧
     (evtPayload.etype ∈ subFull.event_types ∧ subFull.active = true ∧
       0 < subFull.maxsize ∧ subFull.maxsize ≤ subFull.queue.length) ∧
     (evtPayload.etype ∈ subFree.event_types ∧ subFree.active = true ∧
       ¬(0 < subFree.maxsize ∧ subFree.maxsize ≤ subFree.queue.length))) ∧
    ((∀ (st' : EventManagerState) (e' : StreamEvent), ∃ out, publish st' e' = .ok out) ∧
     (∃ st₁ warns, publish busState evtPayload = .ok (st₁, warns) ∧
       st₁.subscriptions =
         ([] : List EventSubscription).map (deliverResult evtPayload) ++ subFull ::
           (([] : List EventSubscription).map (deliverResult evtPayload) ++
             { subFree with queue := subFree.queue ++ [evtPayload] } ::
               ([] : List EventSubscription).map (deliverResult evtPayload)) ∧
       queueFullWarning subFull ∈ warns) ∧
     (processEvents witHandler
         [{ etype := .streamError }, { etype := .streamContent }]).map Prod.fst =
       [{ etype := .streamError }, { etype := .streamContent }]) := by
  have h0 : busState.isShutdown = false := rfl
  have h1 : busState.subscriptions = [] ++ subFull :: ([] ++ subFree :: []) := rfl
  have h2 : evtPayload.etype ∈ subFull.event_types ∧ subFull.active = true ∧
      0 < subFull.maxsize ∧ subFull.maxsize ≤ subFull.queue.length := by decide
  have h3 : evtPayload.etype ∈ subFree.event_types ∧ subFree.active = true ∧
      ¬(0 < subFree.maxsize ∧ subFree.maxsize ≤ subFree.queue.length) := by decide
  exact ⟨⟨h0, h1, h2, h3⟩,
    event_bus_isolation busState evtPayload [] [] [] subFull subFree h0 h1 h2 h3
      witHandler [{ etype := .streamError }, { etype := .streamContent }]⟩

/-! Helper lemmas for the scheduler and the orchestrator loop. -/

theorem okBind {α β : Type} (a : α) (f : α → Except PyErr β) :
    ((Except.ok a : Except PyErr α) >>= f) = f a := rfl

theorem errBind {α β : Type} (e : PyErr) (f : α → Except PyErr β) :
    ((Except.error e : Except PyErr α) >>= f) = .error e := rfl

theorem scheduleRequest_ok (jsonLoads : String → Except PyErr Args) (cfg : SrcConfig)
    (reg : SrcToolRegistry) (signal : Option Unit) (req : ChatToolCall) (m : ToolMessage)
    (h : scheduleRequest jsonLoads cfg reg signal req = .ok m) :
    m.tool_call_id = req.id ∧ m.role = "tool" := by
  unfold scheduleRequest at h
  by_cases hn : (!strTruthy req.function.name) = true
  · rw [if_pos hn] at h
    cases h; exact ⟨rfl, rfl⟩
  · rw [if_neg hn] at h
    cases hg : reg.get_tool (req.function.name.getD "") with
    | none => simp only [hg] at h; cases h; exact ⟨rfl, rfl⟩
    | some tool =>
      simp only [hg] at h
      cases hj : jsonLoads req.function.arguments with
      | error e => rw [hj, errBind] at h; cases h
      | ok args =>
        rw [hj, okBind] at h
        by_cases hy : cfg.approval_mode = "yolo"
        · rw [if_pos hy] at h
          cases h; exact ⟨rfl, rfl⟩
        · rw [if_neg hy] at h
          cases hcd : tool.should_confirm_execute args signal with
          | error e => rw [hcd, errBind] at h; cases h
          | ok det =>
            rw [hcd, okBind] at h
            cases det with
            | some d => split at h <;> (cases h; exact ⟨rfl, rfl⟩)
            | none => cases h; exact ⟨rfl, rfl⟩

theorem schedule_ok_spec (jsonLoads : String → Except PyErr Args) (cfg : SrcConfig)
    (reg : SrcToolRegistry) (signal : Option Unit) :
    ∀ (reqs : List ChatToolCall) (msgs : List ToolMessage),
      schedule jsonLoads cfg reg signal reqs = .ok msgs →
      msgs.length = reqs.length ∧
      ∀ (i : Nat) req, reqs[i]? = some req →
        ∃ m, msgs[i]? = some m ∧ m.tool_call_id = req.id ∧ m.role = "tool" := by
  intro reqs
  induction reqs with
  | nil =>
    intro msgs h
    cases h
    exact ⟨rfl, by intro i req hi; simp at hi⟩
  | cons req rest ih =>
    intro msgs h
    rw [schedule] at h
    cases hr : scheduleRequest jsonLoads cfg reg signal req with
    | error e => rw [hr, errBind] at h; cases h
    | ok m0 =>
      rw [hr, okBind] at h
      cases hs : schedule jsonLoads cfg reg signal rest with
      | error e => rw [hs, errBind] at h; cases h
      | ok ms =>
        rw [hs, okBind] at h
        cases h
        obtain ⟨hlen, hspec⟩ := ih ms hs
        refine ⟨by simp [hlen], ?_⟩
        intro i req' hi
        cases i with
        | zero =>
          simp only [List.getElem?_cons_zero, Option.some_inj] at hi
          subst hi
          exact ⟨m0, by simp, (scheduleRequest_ok _ _ _ _ _ _ hr).1,
            (scheduleRequest_ok _ _ _ _ _ _ hr).2⟩
        | succ n =>
          simp only [List.getElem?_cons_succ] at hi ⊢
          exact hspec n req' hi

theorem updateLlmResponse_exists_append (r : AggResponse) (messages : List ChatMsg) :
    ∃ k, updateLlmResponse r messages = messages ++ k := by
  unfold updateLlmResponse
  split_ifs <;> first | exact ⟨_, rfl⟩ | exact ⟨[], by simp⟩

theorem generate_append_only (jsonLoads : String → Except PyErr Args) (cfg : SrcConfig)
    (reg : SrcToolRegistry) (signal : Option Unit) :
    ∀ (responses : List AggResponse) (messages : List ChatMsg) (ans : Option String)
      (final : List ChatMsg),
      generateContentStreaming jsonLoads cfg reg signal responses messages = .ok (ans, final) →
      ∃ tail, final = messages ++ tail := by
  intro responses
  induction responses with
  | nil =>
    intro messages ans final h
    cases h
    exact ⟨[], by simp⟩
  | cons r rest ih =>
    intro messages ans final h
    obtain ⟨k, hk⟩ := updateLlmResponse_exists_append r messages
    rw [generateContentStreaming] at h
    split at h
    · cases hs : schedule jsonLoads cfg reg signal r.tool_calls with
      | error e => simp only [hs] at h; cases h
      | ok tr =>
        simp only [hs] at h
        split at h
        · cases h
          refine ⟨k ++ tr.map (fun m =>
            ({ role := "tool", content := some m.content
               tool_call_id := some m.tool_call_id, name := m.name } : ChatMsg)), ?_⟩
          simp only [updateToolResponse, hk, List.append_assoc]
        · obtain ⟨tail, htail⟩ := ih _ _ _ h
          simp only [updateToolResponse, hk, List.append_assoc] at htail
          exact ⟨_, htail⟩
    · split at h
      · cases h
        exact ⟨k, hk⟩
      · obtain ⟨tail, htail⟩ := ih _ _ _ h
        rw [hk, List.append_assoc] at htail
        exact ⟨_, htail⟩

/-- C7: a turn whose aggregated response has non-empty content, no tool
calls and finish reason stop appends the content-only assistant message,
ends the loop and returns exactly that content as the final answer. -/
theorem loop_terminates_on_stop (jsonLoads : String → Except PyErr Args)
    (cfg : SrcConfig) (reg : SrcToolRegistry) (signal : Option Unit)
    (r : AggResponse) (rest : List AggResponse) (messages : List ChatMsg) (c : String)
    (hc : r.content = some c) (hne : c ≠ "") (htc : r.tool_calls = [])
    (hf : r.finish_reason = some "stop") :
    generateContentStreaming jsonLoads cfg reg signal (r :: rest) messages =
      .ok (some c, messages ++ [{ role := "assistant", content := some c }]) := by
  rw [generateContentStreaming]
  rw [if_neg (by simp [htc])]
  rw [if_pos (by simp [hc, hf, strTruthy, hne])]
  rw [updateLlmResponse, if_neg (by simp [htc]), if_pos ⟨by simp [hc, strTruthy, hne], htc⟩, hc]

/-- The final turn used by the termination witness. -/
def doneResp : AggResponse :=
  { content := some "Done.", tool_calls := [], finish_reason := some "stop" }

/-- A json.loads stand-in never consulted by the witnesses that use it. -/
def noLoads : String → Except PyErr Args := fun _ => .error (.jsonDecodeError "unused")

/-- The yolo approval configuration. -/
def yoloCfg : SrcConfig := { approval_mode := "yolo" }

/-- A registry with no tools registered. -/
def emptyReg : SrcToolRegistry := { tools := [] }

/-- Witness for C7: the turn content Done., no tool calls, finish reason
stop returns Done. and appends exactly the assistant message. -/
theorem loop_terminates_on_stop_witness :
    (doneResp.content = some "Done." ∧ "Done." ≠ "" ∧ doneResp.tool_calls = [] ∧
     doneResp.finish_reason = some "stop") ∧
    generateContentStreaming noLoads yoloCfg emptyReg none [doneResp] [] =
      .ok (some "Done.", [] ++ [{ role := "assistant", content := some "Done." }]) :=
  ⟨⟨rfl, by decide, rfl, rfl⟩,
    loop_terminates_on_stop noLoads yoloCfg emptyReg none doneResp [] [] "Done."
      rfl (by decide) rfl rfl⟩

/-- C6 (amended): on an aggregated response with neither truthy content nor
tool calls the orchestrator logs the violation and appends nothing, but then
continues the request loop with the next model request instead of
terminating the turn. -/
theorem protocol_violation_continues_loop (jsonLoads : String → Except PyErr Args)
    (cfg : SrcConfig) (reg : SrcToolRegistry) (signal : Option Unit)
    (r : AggResponse) (rest : List AggResponse) (messages : List ChatMsg)
    (htc : r.tool_calls = []) (hct : strTruthy r.content = false) :
    generateContentStreaming jsonLoads cfg reg signal (r :: rest) messages =
      generateContentStreaming jsonLoads cfg reg signal rest messages := by
  rw [generateContentStreaming]
  rw [if_neg (by simp [htc])]
  rw [if_neg (by simp [hct])]
  rw [updateLlmResponse, if_neg (by simp [hct]), if_neg (by simp [hct]),
    if_neg (by simp [htc])]

/-- The protocol-violation response: neither content nor tool calls. -/
def emptyResp : AggResponse :=
  { content := none, tool_calls := [], finish_reason := some "stop" }

/-- Witness for C6 (amended): after the empty response the loop goes on to
process the next response unchanged. -/
theorem protocol_violation_continues_loop_witness :
    (emptyResp.tool_calls = [] ∧ strTruthy emptyResp.content = false) ∧
    generateContentStreaming noLoads yoloCfg emptyReg none [emptyResp, doneResp] [] =
      generateContentStreaming noLoads yoloCfg emptyReg none [doneResp] [] :=
  ⟨⟨rfl, rfl⟩,
    protocol_violation_continues_loop noLoads yoloCfg emptyReg none emptyResp [doneResp]
      [] rfl rfl⟩

/-- Counterexample to C6 as stated: on the empty response followed by a
normal response, the orchestrator does not terminate the turn; it issues the
next model request, appends that response's assistant message and returns
its content, so the run differs from the terminate-without-append outcome
(no final answer, unchanged history). -/
theorem protocol_violation_counterexample :
    generateContentStreaming noLoads yoloCfg emptyReg none [emptyResp, doneResp] [] =
      .ok (some "Done.", [{ role := "assistant", content := some "Done." }]) ∧
    generateContentStreaming noLoads yoloCfg emptyReg none [emptyResp, doneResp] [] ≠
      .ok (none, []) := by
  have h1 : generateContentStreaming noLoads yoloCfg emptyReg none [emptyResp, doneResp] [] =
      .ok (some "Done.", [{ role := "assistant", content := some "Done." }]) := by rfl
  refine ⟨h1, ?_⟩
  rw [h1]
  intro hcontra
  simp at hcontra

/-- C8: a tool call whose argument string fails to parse does not yield a
validation-error tool result; the json.loads failure propagates out of
ToolCallManager.schedule (line 82 is unguarded), aborting the whole batch. -/
theorem schedule_parse_failure_raises (jsonLoads : String → Except PyErr Args)
    (cfg : SrcConfig) (reg : SrcToolRegistry) (signal : Option Unit)
    (req : ChatToolCall) (rest : List ChatToolCall) (nm : String) (tool : SrcTool)
    (e : PyErr)
    (hname : req.function.name = some nm) (hne : nm ≠ "")
    (hlook : reg.get_tool nm = some tool)
    (hparse : jsonLoads req.function.arguments = .error e) :
    schedule jsonLoads cfg reg signal (req :: rest) = .error e := by
  have h1 : scheduleRequest jsonLoads cfg reg signal req = .error e := by
    unfold scheduleRequest
    rw [if_neg (by simp [hname, strTruthy, hne])]
    simp only [hname, Option.getD_some, hlook]
    rw [hparse, errBind]
  rw [schedule, h1, errBind]

/-- A concrete src-variant tool for the parse-failure witness. -/
def srcReadTool : SrcTool :=
  { name := "read_file"
    display_name := "Read File"
    should_confirm_execute := fun _ _ => .ok none
    execute := fun _ => .ok { llm_content := "data", return_display := "data" } }

/-- A json.loads stand-in that fails on every string, as json.loads does on
the malformed argument payload of the witness. -/
def badLoads : String → Except PyErr Args := fun _ =>
  .error (.jsonDecodeError "Expecting value: line 1 column 1")

/-- The registry holding the read_file tool. -/
def readReg : SrcToolRegistry := { tools := [("read_file", srcReadTool)] }

/-- The malformed tool call of the parse-failure witness. -/
def badReq : ChatToolCall :=
  { id := "tc1", function := { name := some "read_file", arguments := "not json" } }

/-- Witness for C8: scheduling the single malformed call raises the parse
error instead of producing a tool result. -/
theorem schedule_parse_failure_raises_witness :
    (badReq.function.name = some "read_file" ∧ "read_file" ≠ "" ∧
     readReg.get_tool "read_file" = some srcReadTool ∧
     badLoads badReq.function.arguments =
       .error (.jsonDecodeError "Expecting value: line 1 column 1")) ∧
    schedule badLoads yoloCfg readReg none [badReq] =
      .error (.jsonDecodeError "Expecting value: line 1 column 1") :=
  ⟨⟨rfl, by decide, rfl, rfl⟩,
    schedule_parse_failure_raises badLoads yoloCfg readReg none badReq [] "read_file"
      srcReadTool (.jsonDecodeError "Expecting value: line 1 column 1")
      rfl (by decide) rfl rfl⟩

/-- C1 (amended): in every turn whose aggregated response carries tool calls
and whose content is either None or a non-empty string, and whose scheduling
completes, the orchestrator appends the assistant message carrying the tool
calls and then exactly one tool message per tool call, with matching
tool_call_id, in request order, before anything later is appended. -/
theorem history_invariant_toolcall_turn (jsonLoads : String → Except PyErr Args)
    (cfg : SrcConfig) (reg : SrcToolRegistry) (signal : Option Unit)
    (r : AggResponse) (rest : List AggResponse) (messages : List ChatMsg)
    (tool_response : List ToolMessage)
    (htc : r.tool_calls ≠ [])
    (hc : r.content = none ∨ ∃ s, r.content = some s ∧ s ≠ "")
    (hs : schedule jsonLoads cfg reg signal r.tool_calls = .ok tool_response) :
    (tool_response.map fun m =>
        ({ role := "tool", content := some m.content
           tool_call_id := some m.tool_call_id, name := m.name } : ChatMsg)).length =
      r.tool_calls.length ∧
    (∀ (i : Nat) req, r.tool_calls[i]? = some req →
      ∃ tm, (tool_response.map fun m =>
          ({ role := "tool", content := some m.content
             tool_call_id := some m.tool_call_id, name := m.name } : ChatMsg))[i]? =
        some tm ∧ tm.tool_call_id = some req.id ∧ tm.role = "tool") ∧
    ∀ (ans : Option String) (final : List ChatMsg),
      generateContentStreaming jsonLoads cfg reg signal (r :: rest) messages =
        .ok (ans, final) →
      ∃ tail, final =
        messages ++
          [{ role := "assistant", content := r.content, tool_calls := some r.tool_calls }] ++
          (tool_response.map fun m =>
            ({ role := "tool", content := some m.content
               tool_call_id := some m.tool_call_id, name := m.name } : ChatMsg)) ++ tail := by
  obtain ⟨hlen, hspec⟩ := schedule_ok_spec jsonLoads cfg reg signal r.tool_calls tool_response hs
  have hupd : updateLlmResponse r messages =
      messages ++ [{ role := "assistant", content := r.content
                     tool_calls := some r.tool_calls }] := by
    rcases hc with hnone | ⟨s, hsome, hne⟩
    · rw [updateLlmResponse, if_neg (by simp [hnone, strTruthy]),
        if_neg (by simp [hnone, strTruthy]), if_pos ⟨htc, hnone⟩, hnone]
    · rw [updateLlmResponse, if_pos ⟨htc, by simp [hsome, strTruthy, hne]⟩]
  refine ⟨by simp [hlen], ?_, ?_⟩
  · intro i req hi
    obtain ⟨m, hm, hid, _⟩ := hspec i req hi
    refine ⟨{ role := "tool", content := some m.content
              tool_call_id := some m.tool_call_id, name := m.name }, ?_, by simp [hid], rfl⟩
    rw [List.getElem?_map, hm]
    rfl
  · intro ans final h
    rw [generateContentStreaming, if_pos htc] at h
    simp only [hs] at h
    split at h
    · cases h
      refine ⟨[], ?_⟩
      simp [updateToolResponse, hupd]
    · obtain ⟨tail, htail⟩ := generate_append_only jsonLoads cfg reg signal rest _ _ _ h
      refine ⟨tail, ?_⟩
      rw [htail]
      simp [updateToolResponse, hupd]

/-- The tool call used in the history-invariant scenarios. -/
def tcReq : ChatToolCall :=
  { id := "tc7", function := { name := some "mytool", arguments := "\x7b\x7d" } }

/-- A turn carrying one tool call and null content. -/
def toolCallResp : AggResponse :=
  { content := none, tool_calls := [tcReq], finish_reason := some "tool_calls" }

/-- The tool message that scheduling the scenario call produces. -/
def notFoundMsg : ToolMessage :=
  { tool_call_id := "tc7", role := "tool", name := some "mytool"
    content := "Tool not found: mytool" }

/-- Witness for C1 (amended): a turn with one tool call and null content
appends the assistant message and then the single matching tool message. -/
theorem history_invariant_toolcall_turn_witness :
    (toolCallResp.tool_calls ≠ [] ∧
     (toolCallResp.content = none ∨ ∃ s, toolCallResp.content = some s ∧ s ≠ "") ∧
     schedule noLoads yoloCfg emptyReg none toolCallResp.tool_calls =
       .ok [notFoundMsg]) ∧
    (([notFoundMsg].map fun m =>
        ({ role := "tool", content := some m.content
           tool_call_id := some m.tool_call_id, name := m.name } : ChatMsg)).length =
      toolCallResp.tool_calls.length ∧
    (∀ (i : Nat) req, toolCallResp.tool_calls[i]? = some req →
      ∃ tm, ([notFoundMsg].map fun m =>
          ({ role := "tool", content := some m.content
             tool_call_id := some m.tool_call_id, name := m.name } : ChatMsg))[i]? =
        some tm ∧ tm.tool_call_id = some req.id ∧ tm.role = "tool") ∧
    ∀ (ans : Option String) (final : List ChatMsg),
      generateContentStreaming noLoads yoloCfg emptyReg none [toolCallResp] [] =
        .ok (ans, final) →
      ∃ tail, final =
        [] ++
          [{ role := "assistant", content := toolCallResp.content
             tool_calls := some toolCallResp.tool_calls }] ++
          ([notFoundMsg].map fun m =>
            ({ role := "tool", content := some m.content
               tool_call_id := some m.tool_call_id, name := m.name } : ChatMsg)) ++ tail) := by
  have hne : toolCallResp.tool_calls ≠ [] := by
    intro h
    cases h
  have hc : toolCallResp.content = none ∨
      ∃ s, toolCallResp.content = some s ∧ s ≠ "" := Or.inl rfl
  have hs : schedule noLoads yoloCfg emptyReg none toolCallResp.tool_calls =
      .ok [notFoundMsg] := rfl
  exact ⟨⟨hne, hc, hs⟩,
    history_invariant_toolcall_turn noLoads yoloCfg emptyReg none toolCallResp [] []
      _ hne hc hs⟩

/-- A turn carrying one tool call and empty-string content: the append rule
tests `content is None`, so this falls into the warning branch and appends
no assistant message, while the tool message is still appended. -/
def emptyContentResp : AggResponse :=
  { content := some "", tool_calls := [tcReq], finish_reason := some "tool_calls" }

/-- Counterexample to C1 as stated: on a turn whose aggregated response
carries a tool call together with empty-string content, the executed turn
appends the tool message but never appends the assistant message carrying
the tool calls: the resulting history cannot be decomposed as the assistant
message followed by the tool messages. -/
theorem history_invariant_counterexample :
    generateContentStreaming noLoads yoloCfg emptyReg none [emptyContentResp] [] =
      .ok (none, [{ role := "tool", content := some "Tool not found: mytool"
                    tool_call_id := some "tc7", name := some "mytool" }]) ∧
    ¬ ∃ tail : List ChatMsg,
        [({ role := "tool", content := some "Tool not found: mytool"
            tool_call_id := some "tc7", name := some "mytool" } : ChatMsg)] =
          [] ++
            [{ role := "assistant", content := emptyContentResp.content
               tool_calls := some emptyContentResp.tool_calls }] ++ tail := by
  refine ⟨rfl, ?_⟩
  rintro ⟨tail, hcontra⟩
  simp [emptyContentResp] at hcontra

/-! Schema round-trip helpers. -/

theorem mapM_asString_str (l : List String) :
    (l.map Json.str).mapM Json.asString = some l := by
  induction l with
  | nil => rfl
  | cons hd tl ih =>
    rw [List.map_cons, List.mapM_cons, ih]
    rfl

/-- C9 (amended): for the generic default and every convention other than
the named ones openai, anthropic and google, exporting a tool schema is a
lossless round-trip of the declared name, description and
required-parameter list. -/
theorem schema_generic_roundtrip (ts : ToolSchema) (provider : String)
    (h1 : provider ≠ "openai") (h2 : provider ≠ "anthropic") (h3 : provider ≠ "google") :
    recoverName (ts.get_tool_schema provider) = some ts.name ∧
    recoverDescription (ts.get_tool_schema provider) = some ts.description ∧
    recoverRequired (ts.get_tool_schema provider) = some ts.required := by
  rw [ToolSchema.get_tool_schema, if_neg h1, if_neg h2, if_neg h3]
  refine ⟨rfl, rfl, ?_⟩
  show (ts.required.map Json.str).mapM Json.asString = some ts.required
  exact mapM_asString_str ts.required

/-- The tool schema of the round-trip scenario. -/
def fileSchema : ToolSchema :=
  { name := "read_file"
    description := "Reads a file from disk"
    parameters := [{ name := "path", data_type := "string"
                     description := "File path", required := true }]
    required := ["path"] }

/-- Witness for C9 (amended): the litellm default convention round-trips the
declared name, description and required list of the file schema. -/
theorem schema_generic_roundtrip_witness :
    (("litellm" : String) ≠ "openai" ∧ ("litellm" : String) ≠ "anthropic" ∧
     ("litellm" : String) ≠ "google") ∧
    (recoverName (fileSchema.get_tool_schema "litellm") = some fileSchema.name ∧
     recoverDescription (fileSchema.get_tool_schema "litellm") = some fileSchema.description ∧
     recoverRequired (fileSchema.get_tool_schema "litellm") = some fileSchema.required) :=
  ⟨⟨by decide, by decide, by decide⟩,
    schema_generic_roundtrip fileSchema "litellm" (by decide) (by decide) (by decide)⟩

/-- Counterexample to C9 as stated: exporting under the named convention
openai yields the empty object, from which neither the tool name nor the
required-parameter set can be recovered. -/
theorem schema_named_provider_lossy :
    fileSchema.get_tool_schema "openai" = Json.obj [] ∧
    recoverName (fileSchema.get_tool_schema "openai") ≠ some fileSchema.name ∧
    recoverRequired (fileSchema.get_tool_schema "openai") ≠ some fileSchema.required :=
  ⟨rfl, fun h => Option.noConfusion h, fun h => Option.noConfusion h⟩

end TerminalLM
